import Mathlib

set_option linter.unusedVariables false

/-! Shallow embedding of engine/source/game/net/serverQuery.cpp (OpenMBU).
Machine integers are modelled as Nat, with an explicit mod 2^32 (resp. 2^16)
wherever a U32/U16 truncation is observable.  Console log lines and the
onServerQueryStatus script callbacks are omitted (the claims never mention
them); outbound packets and scheduled SimEvents are returned explicitly as
values.  Platform::getVirtualMilliseconds / Sim::getCurrentTime are passed in
as a `now : Nat` parameter. -/

/-- NetAddress in its IPv4 form: four address bytes and a port.
Net::compareAddresses is modelled by decidable equality of this record. -/
structure NetAddr where
  n0 : Nat
  n1 : Nat
  n2 : Nat
  n3 : Nat
  port : Nat
deriving DecidableEq, Repr

/-- struct Ping of serverQuery.cpp. -/
structure Ping where
  address : NetAddr
  session : Nat
  key : Nat
  time : Nat
  tryCount : Nat
  broadcast : Bool
  isLocal : Bool
deriving DecidableEq, Repr

/-- struct PacketStatus of serverQuery.cpp. -/
structure PacketStatus where
  index : Nat
  key : Nat
  time : Nat
  tryCount : Nat
deriving DecidableEq, Repr

/-- struct MasterInfo (declared in serverQuery.h, used throughout the .cpp). -/
structure MasterInfo where
  address : NetAddr
  region : Nat
deriving DecidableEq, Repr

/-- ServerInfo record (fields as listed by the spec data model; the struct
itself lives in the missing header serverQuery.h).  `name` is a char* that can
be NULL, hence Option. -/
structure ServerInfo where
  address : NetAddr
  status : Nat
  name : Option String
  gameType : String
  missionType : String
  missionName : String
  statusString : String
  infoString : String
  ping : Nat
  version : Nat
  numPlayers : Nat
  maxPlayers : Nat
  numBots : Nat
  cpuSpeed : Nat
  isLocal : Bool
  isFavorite : Bool
deriving DecidableEq, Repr

/-- ServerFilter::Type. -/
inductive FilterType where
  | normal
  | buddy
  | offline
  | favorites
  | offlineFiltered
deriving DecidableEq, Repr

/-- Packet kinds this embedding has to distinguish (NetInterface constants). -/
inductive PType where
  | gamePingRequest
  | gamePingResponse
  | gameInfoRequest
  | gameInfoResponse
  | masterServerGamePingRequest
  | masterServerGameInfoRequest
  | masterServerListRequest
  | gameHeartbeat
deriving DecidableEq, Repr

/-- An outbound datagram: type, destination, flags byte and the 32-bit
keyField written by sendPacket; `target` carries the embedded target address
of the NAT-traversal packets, `pageIndex` the requested list page of a
MasterServerListRequest. -/
structure Packet where
  ptype : PType
  dest : NetAddr
  flags : Nat
  keyField : Nat
  target : Option NetAddr
  pageIndex : Option Nat
deriving DecidableEq, Repr

/-- A scheduled SimEvent: ProcessPingEvent / ProcessPacketEvent carry the
session they were stamped with, HeartbeatEvent carries mSeq; each carries its
due time. -/
inductive SEvent where
  | pingEvent (session : Nat) (due : Nat)
  | packetEvent (session : Nat) (due : Nat)
  | heartbeatEvent (seq : Nat) (due : Nat)
deriving DecidableEq, Repr

/-- Values published to the key/value configuration store (Con::setVariable
and friends). -/
inductive CVal where
  | str (s : String)
  | num (n : Nat)
  | boolean (b : Bool)
  | addr (a : NetAddr)
deriving DecidableEq, Repr

def gHeartbeatInterval : Nat := 10000
def gMasterServerRetryCount : Nat := 3
def gMasterServerTimeout : Nat := 2000
def gPacketRetryCount : Nat := 4
def gPacketTimeout : Nat := 1000
def gMaxConcurrentPings : Nat := 10
def gMaxConcurrentQueries : Nat := 2
def gPingRetryCount : Nat := 4
def gPingTimeout : Nat := 800
def gQueryRetryCount : Nat := 4
def gQueryTimeout : Nat := 1000

/-- The server query protocol version tag. -/
def versionString : String := "VER1"

/-- Modelled from the spec: the ServerInfo Status_* flag bits are declared in
the missing header serverQuery.h; the spec lists the flag set
(New, Updating, Querying, Responded, TimedOut, Dedicated, Passworded, Linux,
Private) as a bitset, so each gets its own bit here.  No claim depends on the
concrete bit positions, only on their distinctness. -/
def statusNew : Nat := 1
def statusUpdating : Nat := 2
def statusQuerying : Nat := 4
def statusResponded : Nat := 8
def statusTimedOut : Nat := 16
def statusDedicated : Nat := 32
def statusPassworded : Nat := 64
def statusLinux : Nat := 128
def statusPrivate : Nat := 256

/-- ServerFilter query flag bit: OfflineQuery = BIT(0). -/
def offlineQueryBit : Nat := 0

/-- BitSet::test. -/
def statusTest (status flag : Nat) : Bool := (status &&& flag) != 0

/-- ServerInfo::isDedicated. -/
def ServerInfo.isDedicated (si : ServerInfo) : Bool := statusTest si.status statusDedicated

/-- ServerInfo::isPassworded. -/
def ServerInfo.isPassworded (si : ServerInfo) : Bool := statusTest si.status statusPassworded

/-- ServerInfo::isUpdating. -/
def ServerInfo.isUpdating (si : ServerInfo) : Bool := statusTest si.status statusUpdating

/-- ServerInfo::isQuerying. -/
def ServerInfo.isQuerying (si : ServerInfo) : Bool := statusTest si.status statusQuerying

/-- The 32-bit key field (session<<16)|(key&0xFFFF) as computed by sendPacket
and the key-validation code, after U32 truncation. -/
def mkKeyField (session key : Nat) : Nat := (session % 65536) * 65536 + key % 65536

/-- dStricmp(a,b) == 0. -/
def stricmpEq (a b : String) : Bool := a.toLower == b.toLower

/-- External collaborators read per call: the parsed master list that
getMasterServerList() builds from the Server::Master0..9 config entries, the
GameConnection protocol constants and getVersionNumber() from the missing
headers, GNet->doesAllowConnections(), the responder's config snapshot, the
validateAuthenticatedServer() oracle, and whether TORQUE_NET_HOLEPUNCHING was
compiled in. -/
structure Config where
  holePunch : Bool
  masters : List MasterInfo
  currentProtocolVersion : Nat
  minRequiredProtocolVersion : Nat
  versionNumber : Nat
  allowConnections : Bool
  serverType : String
  serverMaxPlayers : Int
  serverPrivateSlots : Int
  serverPlayerCount : Int
  serverName : String
  authenticated : Bool
deriving DecidableEq, Repr

/-- The module-level mutable state of serverQuery.cpp gathered into one
record: gPingSession, gKey, gGotFirstListPacket, sgServerQueryActive,
gMasterServerPing, gPingList, gQueryList, gPacketStatusList, gFinishedList,
gServerList, gMasterServerList (the working copy), gServerPingCount,
gServerQueryCount, gHeartbeatSeq, the relevant fields of sActiveFilter,
gServerBrowserDirty, localNetAddresses and gMasterServerQueryAddress. -/
structure SQState where
  pingSession : Nat
  key : Nat
  gotFirstListPacket : Bool
  serverQueryActive : Bool
  masterServerPing : Ping
  pingList : List Ping
  queryList : List Ping
  packetStatusList : List PacketStatus
  finishedList : List NetAddr
  serverList : List ServerInfo
  masterServerList : List MasterInfo
  serverPingCount : Nat
  serverQueryCount : Nat
  heartbeatSeq : Nat
  filterType : FilterType
  filterMaxPing : Nat
  filterQueryFlags : Nat
  browserDirty : Bool
  localAddresses : List NetAddr
  masterServerQueryAddress : NetAddr
deriving DecidableEq, Repr

/-- findPingEntry: index of the first entry whose address matches. -/
def findPingEntry : List Ping → NetAddr → Option Nat
  | [], _ => none
  | p :: rest, a =>
    if p.address = a then some 0 else (findPingEntry rest a).map (· + 1)

/-- addressFinished: linear scan of gFinishedList. -/
def addressFinished (finished : List NetAddr) (a : NetAddr) : Bool :=
  finished.any (fun x => x == a)

/-- findServerInfo: pointer to the first gServerList entry with this address. -/
def findServerInfo : List ServerInfo → NetAddr → Option ServerInfo
  | [], _ => none
  | si :: rest, a => if si.address = a then some si else findServerInfo rest a

/-- Index variant of findServerInfo (the code mutates through the pointer;
here updates go through the index). -/
def findServerInfoIdx : List ServerInfo → NetAddr → Option Nat
  | [], _ => none
  | si :: rest, a =>
    if si.address = a then some 0 else (findServerInfoIdx rest a).map (· + 1)

/-- Overwrite the status of the first ServerInfo matching the address
(`si->status = v` after findServerInfo). -/
def setStatusFirst (a : NetAddr) (v : Nat) : List ServerInfo → List ServerInfo
  | [] => []
  | si :: rest =>
    if si.address = a then { si with status := v } :: rest
    else si :: setStatusFirst a v rest

/-- The per-entry marking done by cancelServerQuery: if a ServerInfo for the
address exists and does not have Status_Responded, its status becomes
Status_TimedOut. -/
def markTimedOutUnlessResponded (a : NetAddr) : List ServerInfo → List ServerInfo
  | [] => []
  | si :: rest =>
    if si.address = a then
      (if statusTest si.status statusResponded then si
       else { si with status := statusTimedOut }) :: rest
    else si :: markTimedOutUnlessResponded a rest

/-- removeServerInfo: the source iterates with erase(i) and no index
adjustment, so the element immediately following an erased entry is skipped. -/
def removeServerInfoLoop (a : NetAddr) : List ServerInfo → List ServerInfo
  | [] => []
  | si :: rest =>
    if si.address = a then
      match rest with
      | [] => []
      | y :: rest2 => y :: removeServerInfoLoop a rest2
    else si :: removeServerInfoLoop a rest

/-- ServerInfo as default-constructed by findOrCreateServerInfo (constructor
in the missing header; modelled from the spec: a fresh record carrying only
the address, flagged New). -/
def newServerInfo (a : NetAddr) : ServerInfo :=
  { address := a, status := statusNew, name := none, gameType := ""
  , missionType := "", missionName := "", statusString := "", infoString := ""
  , ping := 0, version := 0, numPlayers := 0, maxPlayers := 0, numBots := 0
  , cpuSpeed := 0, isLocal := false, isFavorite := false }

/-- addLocalAddress: append if not present. -/
def addLocalAddress (l : List NetAddr) (a : NetAddr) : List NetAddr :=
  if l.any (fun x => x == a) then l else l ++ [a]

/-- pushPingRequest: a no-op for finished addresses, otherwise appends a fresh
Ping (session = gPingSession, key = 0, time = 0, tryCount = gPingRetryCount,
not broadcast, not local) and bumps gServerPingCount. -/
def pushPingRequest (a : NetAddr) (s : SQState) : SQState :=
  if addressFinished s.finishedList a then s
  else
    { s with
      pingList := s.pingList ++
        [{ address := a, session := s.pingSession, key := 0, time := 0
         , tryCount := gPingRetryCount, broadcast := false, isLocal := false }]
      serverPingCount := s.serverPingCount + 1 }

/-- clearServerList(clearServerInfo): drops every queue, optionally the server
list, resets the counters and bumps gPingSession. -/
def clearServerList (clearInfo : Bool) (s : SQState) : SQState :=
  { s with
    packetStatusList := []
    serverList := if clearInfo then [] else s.serverList
    finishedList := []
    pingList := []
    queryList := []
    serverPingCount := 0
    serverQueryCount := 0
    localAddresses := []
    pingSession := s.pingSession + 1 }

/-- cancelServerQuery: when a query is active, clears the packet status list,
drains the ping and query lists (marking each drained entry's ServerInfo
TimedOut unless it already Responded) and deactivates the query.  It does not
touch gPingSession. -/
def cancelServerQuery (s : SQState) : SQState :=
  if s.serverQueryActive then
    { s with
      packetStatusList := []
      pingList := []
      queryList := []
      serverList :=
        (s.queryList.foldl (fun acc p => markTimedOutUnlessResponded p.address acc)
          (s.pingList.foldl (fun acc p => markTimedOutUnlessResponded p.address acc)
            s.serverList))
      serverQueryActive := false
      browserDirty := true }
  else s

/-- sendPacket(pType, addr, key, session, flags): header-only packet. -/
def sendPacketOut (pt : PType) (a : NetAddr) (key session flags : Nat) : Packet :=
  { ptype := pt, dest := a, flags := flags, keyField := mkKeyField session key
  , target := none, pageIndex := none }

/-- The MasterServerGamePingRequest / MasterServerGameInfoRequest rendezvous
packets forwarded to one master under TORQUE_NET_HOLEPUNCHING: they carry the
target address and the same flags/keyField as the direct request. -/
def holePunchForward (pt : PType) (m : NetAddr) (p : Ping) (flags : Nat) : Packet :=
  { ptype := pt, dest := m, flags := flags
  , keyField := mkKeyField p.session p.key, target := some p.address
  , pageIndex := none }

/-- The ping-phase loop of processPingsAndQueries.  `kept` holds (reversed)
the entries already passed over — the loop index i equals kept.length, so the
i < gMaxConcurrentPings bound is kept.length < gMaxConcurrentPings.  A due
entry with tries left is resent (new key from gKey++, GamePingRequest, plus
the rendezvous forwards when hole-punching is compiled in and the ping is not
a broadcast); a due entry without tries is timed out: its ServerInfo (if any)
gets Status_TimedOut, the address joins gFinishedList and the entry is erased
(the loop index does not advance). -/
def pingLoop (cfg : Config) (now : Nat) : List Ping → List Ping → SQState →
    SQState × List Packet
  | kept, [], s => ({ s with pingList := kept.reverse }, [])
  | kept, p :: rest, s =>
    if kept.length < gMaxConcurrentPings then
      if p.time + gPingTimeout < now then
        if p.tryCount = 0 then
          pingLoop cfg now kept rest
            { s with
              serverList := setStatusFirst p.address statusTimedOut s.serverList
              browserDirty :=
                if (findServerInfo s.serverList p.address).isSome then true
                else s.browserDirty
              finishedList := s.finishedList ++ [p.address] }
        else
          let p2 : Ping :=
            { p with tryCount := p.tryCount - 1, time := now, key := s.key }
          let out :=
            sendPacketOut PType.gamePingRequest p2.address p2.key p2.session 0 ::
              (if cfg.holePunch && !p2.broadcast then
                s.masterServerList.map
                  (fun m => holePunchForward PType.masterServerGamePingRequest
                    m.address p2 0)
              else [])
          let r := pingLoop cfg now (p2 :: kept) rest { s with key := s.key + 1 }
          (r.1, out ++ r.2)
      else pingLoop cfg now (p :: kept) rest s
    else ({ s with pingList := kept.reverse ++ (p :: rest) }, [])

/-- The query-phase loop of processPingsAndQueries (runs only when the ping
list is empty and we are not waiting for the master).  Note the source
compares the due time against gPingTimeout here as well.  An entry without a
ServerInfo is just erased; a due entry without tries marks the ServerInfo
TimedOut and is erased; otherwise the entry is resent as a GameInfoRequest
(plus rendezvous forwards) and the ServerInfo gains Status_Querying. -/
def queryLoop (cfg : Config) (now : Nat) : List Ping → List Ping → SQState →
    SQState × List Packet
  | kept, [], s => ({ s with queryList := kept.reverse }, [])
  | kept, p :: rest, s =>
    if kept.length < gMaxConcurrentQueries then
      if p.time + gPingTimeout < now then
        match findServerInfoIdx s.serverList p.address with
        | none =>
          queryLoop cfg now kept rest { s with browserDirty := true }
        | some j =>
          if p.tryCount = 0 then
            queryLoop cfg now kept rest
              { s with
                serverList := s.serverList.set j
                  { (s.serverList.getD j (newServerInfo p.address)) with
                    status := statusTimedOut }
                browserDirty := true }
          else
            let p2 : Ping :=
              { p with tryCount := p.tryCount - 1, time := now, key := s.key }
            let out :=
              sendPacketOut PType.gameInfoRequest p2.address p2.key p2.session 0 ::
                (if cfg.holePunch && !p2.broadcast then
                  s.masterServerList.map
                    (fun m => holePunchForward PType.masterServerGameInfoRequest
                      m.address p2 0)
                else [])
            let si := s.serverList.getD j (newServerInfo p.address)
            let s2 :=
              if !si.isQuerying then
                { s with
                  key := s.key + 1
                  serverList := s.serverList.set j
                    { si with status := si.status ||| statusQuerying }
                  browserDirty := true }
              else { s with key := s.key + 1 }
            let r := queryLoop cfg now (p2 :: kept) rest s2
            (r.1, out ++ r.2)
      else queryLoop cfg now (p :: kept) rest s
    else ({ s with queryList := kept.reverse ++ (p :: rest) }, [])

/-- processPingsAndQueries(session, schedule): the orchestrator tick.  Stale
sessions return immediately.  The ping loop runs first; the query loop runs
only when the ping list is then empty and we are not waiting for the first
master list packet of an active Normal query.  If anything is still pending
the tick reschedules itself (when `schedule`); the "done" status callback of
the empty case is an omitted console effect. -/
def processPingsAndQueries (cfg : Config) (session : Nat) (schedule : Bool)
    (now : Nat) (s : SQState) : SQState × List Packet × List SEvent :=
  if session ≠ s.pingSession then (s, [], [])
  else
    let waitingForMaster :=
      s.filterType = FilterType.normal ∧ s.gotFirstListPacket = false ∧
        s.serverQueryActive = true
    let r1 := pingLoop cfg now [] s.pingList s
    let r2 :=
      if r1.1.pingList.isEmpty ∧ ¬ waitingForMaster then
        queryLoop cfg now [] r1.1.queryList r1.1
      else (r1.1, [])
    let evs :=
      if ¬ r2.1.pingList.isEmpty ∨ ¬ r2.1.queryList.isEmpty ∨ waitingForMaster then
        if schedule then [SEvent.pingEvent session (now + 1)] else []
      else []
    (r2.1, r1.2 ++ r2.2, evs)

/-- The list-packet re-request sent by processServerListPackets: a
MasterServerListRequest for one page with every filter field zeroed. -/
def listRerequestPacket (dest : NetAddr) (queryFlags session key idx : Nat) :
    Packet :=
  { ptype := PType.masterServerListRequest, dest := dest, flags := queryFlags
  , keyField := mkKeyField session key, target := none, pageIndex := some idx }

/-- The resend/timeout loop of processServerListPackets.  The source erases
with `erase(i)` and still increments i, so the element after an erased entry
is skipped on this pass (it moves to `kept` unexamined). -/
def packetLoop (queryAddr : NetAddr) (queryFlags session now : Nat) :
    List PacketStatus → List PacketStatus → SQState → SQState × List Packet
  | kept, [], s => ({ s with packetStatusList := kept.reverse }, [])
  | kept, p :: rest, s =>
    if p.time + gPacketTimeout < now then
      if p.tryCount = 0 then
        match rest with
        | [] => ({ s with packetStatusList := kept.reverse }, [])
        | y :: rest2 => packetLoop queryAddr queryFlags session now (y :: kept) rest2 s
      else
        let p2 : PacketStatus :=
          { p with tryCount := p.tryCount - 1, time := now, key := s.key }
        let out := listRerequestPacket queryAddr queryFlags session p2.key p2.index
        let r := packetLoop queryAddr queryFlags session now (p2 :: kept) rest
          { s with key := s.key + 1 }
        (r.1, out :: r.2)
    else packetLoop queryAddr queryFlags session now (p :: kept) rest s

/-- processServerListPackets(session): guarded by session and
sgServerQueryActive; re-requests missing list fragments, then either
reschedules itself 30 ms later or, once no fragment is outstanding, falls
through to processPingsAndQueries. -/
def processServerListPackets (cfg : Config) (session now : Nat) (s : SQState) :
    SQState × List Packet × List SEvent :=
  if session ≠ s.pingSession ∨ s.serverQueryActive = false then (s, [], [])
  else
    let r1 := packetLoop s.masterServerQueryAddress s.filterQueryFlags session now
      [] s.packetStatusList s
    if ¬ r1.1.packetStatusList.isEmpty then
      (r1.1, r1.2, [SEvent.packetEvent session (now + 30)])
    else
      let r2 := processPingsAndQueries cfg r1.1.pingSession true now r1.1
      (r2.1, r1.2 ++ r2.2.1, r2.2.2)

/-- A MasterServerListResponse body. -/
structure MasterListPacket where
  packetIndex : Nat
  packetTotal : Nat
  servers : List NetAddr
deriving DecidableEq, Repr

/-- The key the client expects a list fragment to echo: the master ping's key,
or — once the first packet has arrived — the key recorded in the PacketStatus
entry for that fragment index (falling back to the master ping's key). -/
def storedPacketKey (s : SQState) (packetIndex : Nat) : Nat :=
  if s.gotFirstListPacket then
    match s.packetStatusList.find? (fun q => q.index == packetIndex) with
    | some q => q.key
    | none => s.masterServerPing.key
  else s.masterServerPing.key

/-- Erase the first PacketStatus entry with the given index (the source loop
breaks after the first erase). -/
def eraseFirstStatus (idx : Nat) : List PacketStatus → List PacketStatus
  | [] => []
  | q :: rest =>
    if q.index = idx then rest else q :: eraseFirstStatus idx rest

/-- handleMasterServerListResponse: validates the echoed key against
(gPingSession<<16)|(storedKey&0xFFFF) and drops mismatches; on acceptance every
server address in the fragment is pushed as a ping request (and, when the
flags byte is set, also recorded as our own public address).  The first
accepted fragment records packetTotal by creating a PacketStatus entry (key =
the master ping's key, tryCount = gPacketRetryCount) for every other index and
immediately runs processServerListPackets; later fragments just clear their
own PacketStatus entry. -/
def handleMasterServerListResponse (cfg : Config) (pkt : MasterListPacket)
    (key flags now : Nat) (s : SQState) : SQState × List Packet × List SEvent :=
  if mkKeyField s.pingSession (storedPacketKey s pkt.packetIndex) ≠ key then
    (s, [], [])
  else
    let s1 := pkt.servers.foldl
      (fun st a =>
        pushPingRequest a
          (if flags ≠ 0 then
            { st with localAddresses := addLocalAddress st.localAddresses a }
          else st))
      s
    if s.gotFirstListPacket = false then
      let s2 :=
        { s1 with
          gotFirstListPacket := true
          masterServerQueryAddress := s.masterServerPing.address
          packetStatusList := s1.packetStatusList ++
            (((List.range pkt.packetTotal).filter (fun i => i ≠ pkt.packetIndex)).map
              (fun i =>
                { index := i, key := s.masterServerPing.key, time := now
                , tryCount := gPacketRetryCount })) }
      processServerListPackets cfg s2.pingSession now s2
    else
      ({ s1 with packetStatusList := eraseFirstStatus pkt.packetIndex s1.packetStatusList },
        [], [])

/-- A GamePingResponse body (after the echoed header). -/
structure PingResponsePacket where
  versionTag : String
  protocolCurrent : Nat
  protocolMin : Nat
  buildVersion : Nat
  serverName : String
deriving DecidableEq, Repr

/-- Out-of-range placeholder for list indexing (the C++ indexes directly and
is always in bounds where this is used). -/
def nullPing : Ping :=
  { address := { n0 := 0, n1 := 0, n2 := 0, n3 := 0, port := 0 }
  , session := 0, key := 0, time := 0, tryCount := 0
  , broadcast := false, isLocal := false }

/-- Set isLocal on the ping-list entry at the given index
(gPingList[index].isLocal = true). -/
def setIsLocalAt : List Ping → Nat → List Ping
  | [], _ => []
  | p :: rest, 0 => { p with isLocal := true } :: rest
  | p :: rest, n + 1 => p :: setIsLocalAt rest n

/-- handleGamePingResponse.  Returns immediately when the ping list is empty.
A response from an address without a ping entry that is not finished is
re-enqueued as a local ping.  A matching entry is dropped unless the echoed
key equals (session<<16)|(key&0xFFFF); then the version tag, both protocol
bounds, the optional max-ping filter and the build version are checked in
order, each failure finishing (or removing) the server; on success the
ServerInfo is created/updated and the entry moves to the query list with
tryCount = gQueryRetryCount.  The handler itself transmits nothing. -/
def handleGamePingResponse (cfg : Config) (a : NetAddr)
    (pkt : PingResponsePacket) (key now : Nat) (s : SQState) : SQState :=
  if s.pingList.isEmpty then s
  else
    match findPingEntry s.pingList a with
    | none =>
      if addressFinished s.finishedList a then s
      else
        let s1 := pushPingRequest a s
        match findPingEntry s1.pingList a with
        | some j => { s1 with pingList := setIsLocalAt s1.pingList j }
        | none => s1
    | some idx =>
      let p := s.pingList.getD idx nullPing
      if mkKeyField p.session p.key ≠ key then s
      else
        let siFound := (findServerInfoIdx s.serverList a).isSome
        if pkt.versionTag ≠ versionString then
          { s with
            finishedList := s.finishedList ++ [a]
            pingList := s.pingList.eraseIdx idx
            serverList :=
              if siFound then setStatusFirst a statusTimedOut s.serverList
              else s.serverList
            browserDirty := if siFound then true else s.browserDirty }
        else if pkt.protocolCurrent < cfg.minRequiredProtocolVersion then
          { s with
            finishedList := s.finishedList ++ [a]
            pingList := s.pingList.eraseIdx idx
            serverList :=
              if siFound then setStatusFirst a statusTimedOut s.serverList
              else s.serverList
            browserDirty := if siFound then true else s.browserDirty }
        else if cfg.currentProtocolVersion < pkt.protocolMin then
          { s with
            finishedList := s.finishedList ++ [a]
            pingList := s.pingList.eraseIdx idx
            serverList :=
              if siFound then setStatusFirst a statusTimedOut s.serverList
              else s.serverList
            browserDirty := if siFound then true else s.browserDirty }
        else
          let applyFilter :=
            if s.filterType = FilterType.normal ∨
                s.filterType = FilterType.offlineFiltered then
              match findServerInfo s.serverList a with
              | some si => !si.isUpdating
              | none => true
            else false
          let pingms := if now > p.time then now - p.time else 0
          if applyFilter ∧ s.filterMaxPing > 0 ∧ pingms > s.filterMaxPing then
            { s with
              finishedList := s.finishedList ++ [a]
              pingList := s.pingList.eraseIdx idx
              serverList :=
                if siFound then removeServerInfoLoop a s.serverList
                else s.serverList
              browserDirty := if siFound then true else s.browserDirty }
          else if pkt.buildVersion ≠ cfg.versionNumber then
            { s with
              finishedList := s.finishedList ++ [a]
              pingList := s.pingList.eraseIdx idx
              serverList :=
                if siFound then removeServerInfoLoop a s.serverList
                else s.serverList
              browserDirty := if siFound then true else s.browserDirty }
          else
            let slj : List ServerInfo × Nat :=
              match findServerInfoIdx s.serverList a with
              | some j => (s.serverList, j)
              | none => (s.serverList ++ [newServerInfo a], s.serverList.length)
            let si := slj.1.getD slj.2 (newServerInfo a)
            let si2 :=
              { si with
                ping := pingms
                version := pkt.buildVersion
                isLocal := p.isLocal
                name :=
                  match si.name with
                  | none => some pkt.serverName
                  | some n => some n }
            { s with
              serverList := slj.1.set slj.2 si2
              finishedList := s.finishedList ++ [a]
              queryList := s.queryList ++
                [{ p with key := 0, time := 0, tryCount := gQueryRetryCount }]
              serverQueryCount := s.serverQueryCount + 1
              pingList := s.pingList.eraseIdx idx
              browserDirty := true }

/-- The GamePingResponse a server sends back (the string-compression choice of
the version tag and server name is a wire-encoding detail and not modelled). -/
structure PingReply where
  flagsEcho : Nat
  keyEcho : Nat
  versionTag : String
  protocolCurrent : Nat
  protocolMin : Nat
  buildVersion : Nat
  serverName : String
deriving DecidableEq, Repr

/-- handleGamePingRequest (the server-side ping responder): no reply unless
connections are allowed; no reply for a SinglePlayer server (dStricmp), for a
request with the OfflineQuery flag bit set, or when the current player count
has reached Pref::Server::MaxPlayers minus Pref::Server::PrivateSlots;
otherwise it echoes flags and key and answers with versionString, the protocol
versions, the build version and the 24-character-truncated server name. -/
def handleGamePingRequest (cfg : Config) (key flags : Nat) : Option PingReply :=
  if cfg.allowConnections then
    if stricmpEq cfg.serverType "SinglePlayer" then none
    else if flags.testBit offlineQueryBit then none
    else if cfg.serverPlayerCount ≥ cfg.serverMaxPlayers - cfg.serverPrivateSlots then
      none
    else
      some
        { flagsEcho := flags, keyEcho := key, versionTag := versionString
        , protocolCurrent := cfg.currentProtocolVersion
        , protocolMin := cfg.minRequiredProtocolVersion
        , buildVersion := cfg.versionNumber
        , serverName := cfg.serverName.take 24 }
  else none

/-- sendHeartbeat(flags): one GameHeartbeat (key 0, current session) to every
master returned by getMasterServerList(). -/
def sendHeartbeat (cfg : Config) (flags : Nat) (s : SQState) : List Packet :=
  cfg.masters.map (fun m => sendPacketOut PType.gameHeartbeat m.address 0 s.pingSession flags)

/-- processHeartbeat(seq): a tick whose sequence is stale does nothing; a
current tick sends the heartbeats and reschedules itself gHeartbeatInterval
later with the same sequence. -/
def processHeartbeat (cfg : Config) (seq now : Nat) (s : SQState) :
    List Packet × List SEvent :=
  if seq ≠ s.heartbeatSeq then ([], [])
  else (sendHeartbeat cfg 0 s, [SEvent.heartbeatEvent seq (now + gHeartbeatInterval)])

/-- stopHeartbeat: just bump gHeartbeatSeq, orphaning any scheduled tick. -/
def stopHeartbeat (s : SQState) : SQState :=
  { s with heartbeatSeq := s.heartbeatSeq + 1 }

/-- startHeartbeat: gated by validateAuthenticatedServer(); bumps the sequence
and runs an immediate tick. -/
def startHeartbeat (cfg : Config) (now : Nat) (s : SQState) :
    SQState × List Packet × List SEvent :=
  if cfg.authenticated then
    let s2 := { s with heartbeatSeq := s.heartbeatSeq + 1 }
    let r := processHeartbeat cfg s2.heartbeatSeq now s2
    (s2, r.1, r.2)
  else (s, [], [])

/-- The configuration variables setServerInfo publishes for one list entry. -/
def publishVars (si : ServerInfo) : List (String × CVal) :=
  [ ("ServerInfo::Status", CVal.num si.status)
  , ("ServerInfo::Address", CVal.addr si.address)
  , ("ServerInfo::Name", CVal.str (si.name.getD ""))
  , ("ServerInfo::GameType", CVal.str si.gameType)
  , ("ServerInfo::MissionName", CVal.str si.missionName)
  , ("ServerInfo::MissionType", CVal.str si.missionType)
  , ("ServerInfo::State", CVal.str si.statusString)
  , ("ServerInfo::Info", CVal.str si.infoString)
  , ("ServerInfo::PlayerCount", CVal.num si.numPlayers)
  , ("ServerInfo::MaxPlayers", CVal.num si.maxPlayers)
  , ("ServerInfo::BotCount", CVal.num si.numBots)
  , ("ServerInfo::Version", CVal.num si.version)
  , ("ServerInfo::Ping", CVal.num si.ping)
  , ("ServerInfo::CPUSpeed", CVal.num si.cpuSpeed)
  , ("ServerInfo::Favorite", CVal.boolean si.isFavorite)
  , ("ServerInfo::Dedicated", CVal.boolean si.isDedicated)
  , ("ServerInfo::Password", CVal.boolean si.isPassworded)
  , ("ServerInfo::IsLocal", CVal.boolean si.isLocal) ]

/-- setServerInfo(index) console function: the S32 produced by dAtoi is stored
into a U32 (hence the mod 2^32), the `index >= 0` test is vacuous on U32, and
only `index < gServerList.size()` decides; in range the entry's fields are
published and true returned, otherwise false and nothing is set. -/
def setServerInfo (v : Int) (l : List ServerInfo) : Bool × List (String × CVal) :=
  let index : Nat := (v % (2 ^ 32 : Int)).toNat
  if h : index < l.length then (true, publishVars (l.get ⟨index, h⟩))
  else (false, [])

/-! Concrete fixtures used by witnesses and counterexamples. -/

def addrA : NetAddr := { n0 := 192, n1 := 0, n2 := 2, n3 := 10, port := 28000 }
def addrB : NetAddr := { n0 := 192, n1 := 0, n2 := 2, n3 := 11, port := 28000 }
def addrM : NetAddr := { n0 := 10, n1 := 0, n2 := 0, n3 := 1, port := 28002 }

def cfg0 : Config :=
  { holePunch := false, masters := [{ address := addrM, region := 2 }]
  , currentProtocolVersion := 12, minRequiredProtocolVersion := 9
  , versionNumber := 40, allowConnections := true, serverType := "MultiPlayer"
  , serverMaxPlayers := 8, serverPrivateSlots := 0, serverPlayerCount := 0
  , serverName := "srv", authenticated := true }

def masterPing0 : Ping :=
  { address := addrM, session := 1, key := 5, time := 0, tryCount := 3
  , broadcast := false, isLocal := false }

/-- A state just after a Normal query chose its master and sent the list
request: session 1, master ping key 5, nothing received yet. -/
def s0 : SQState :=
  { pingSession := 1, key := 6, gotFirstListPacket := false
  , serverQueryActive := true, masterServerPing := masterPing0
  , pingList := [], queryList := [], packetStatusList := []
  , finishedList := [], serverList := [], masterServerList := [{ address := addrM, region := 2 }]
  , serverPingCount := 0, serverQueryCount := 0, heartbeatSeq := 3
  , filterType := FilterType.normal, filterMaxPing := 0, filterQueryFlags := 0
  , browserDirty := false, localAddresses := [], masterServerQueryAddress := addrM }

/-- Two master-list fragments (packetTotal 2) that both carry addrA. -/
def frag0 : MasterListPacket := { packetIndex := 0, packetTotal := 2, servers := [addrA] }
def frag1 : MasterListPacket := { packetIndex := 1, packetTotal := 2, servers := [addrA] }

/-- The key both fragments must echo: (session 1 << 16) | (master key 5). -/
def key01 : Nat := mkKeyField 1 5

/-- State after the first fragment was accepted (addrA pinged once, one
PacketStatus outstanding for index 1). -/
def st1 : SQState := (handleMasterServerListResponse cfg0 frag0 key01 0 100 s0).1

/-- State after the second fragment, which repeats addrA while its first ping
is still outstanding. -/
def st2 : SQState := (handleMasterServerListResponse cfg0 frag1 key01 0 150 st1).1

/-- Number of ping-list entries for one address. -/
def countPingsFor (a : NetAddr) (l : List Ping) : Nat :=
  (l.filter (fun p => p.address == a)).length

/-- C1 counterexample: in an active-query state, cancelServerQuery leaves
gPingSession exactly where it was, so the session counter does not strictly
increase across the cancel. -/
theorem cancelServerQuery_session_counterexample :
    s0.serverQueryActive = true ∧
      ¬ s0.pingSession < (cancelServerQuery s0).pingSession := by
  decide

/-- C1 (amended): while a query is active, cancelServerQuery leaves
gPingSession unchanged — the session bump happens in clearServerList, at the
start of the next query — and instead empties the packet-status, ping and
query lists and deactivates the query. -/
theorem cancelServerQuery_keeps_session (s : SQState) (b : Bool)
    (h : s.serverQueryActive = true) :
    (cancelServerQuery s).pingSession = s.pingSession ∧
      (clearServerList b s).pingSession = s.pingSession + 1 ∧
      (cancelServerQuery s).packetStatusList = [] ∧
      (cancelServerQuery s).pingList = [] ∧
      (cancelServerQuery s).queryList = [] ∧
      (cancelServerQuery s).serverQueryActive = false := by
  simp [cancelServerQuery, clearServerList, h]

theorem cancelServerQuery_keeps_session_witness :
    s0.serverQueryActive = true ∧
      ((cancelServerQuery s0).pingSession = s0.pingSession ∧
        (clearServerList true s0).pingSession = s0.pingSession + 1 ∧
        (cancelServerQuery s0).packetStatusList = [] ∧
        (cancelServerQuery s0).pingList = [] ∧
        (cancelServerQuery s0).queryList = [] ∧
        (cancelServerQuery s0).serverQueryActive = false) :=
  ⟨by decide, cancelServerQuery_keeps_session s0 true (by decide)⟩

/-- C2 counterexample: starting from the pre-first-packet state s0, accepting
fragment 0 (which carries addrA) and then fragment 1 (which carries addrA
again, while the first ping for addrA is still outstanding) leaves two Ping
entries for addrA in gPingList. -/
theorem duplicate_ping_counterexample :
    countPingsFor addrA st2.pingList = 2 ∧
      ¬ countPingsFor addrA st2.pingList ≤ 1 := by
  decide

/-- C2 (amended): pushPingRequest suppresses the enqueue only for addresses
already in gFinishedList; for any unfinished address it appends a fresh Ping
even when one for the same address is already in gPingList, so an address
repeated across master-list fragments while its first ping is outstanding
gets a second entry. -/
theorem pushPingRequest_guard (s : SQState) (a : NetAddr) :
    (addressFinished s.finishedList a = true → pushPingRequest a s = s) ∧
      (addressFinished s.finishedList a = false →
        (pushPingRequest a s).pingList = s.pingList ++
          [{ address := a, session := s.pingSession, key := 0, time := 0
           , tryCount := gPingRetryCount, broadcast := false, isLocal := false }]) := by
  constructor
  · intro h
    simp [pushPingRequest, h]
  · intro h
    simp [pushPingRequest, h]

theorem pushPingRequest_guard_witness :
    addressFinished s0.finishedList addrA = false ∧
      (pushPingRequest addrA s0).pingList = s0.pingList ++
        [{ address := addrA, session := s0.pingSession, key := 0, time := 0
         , tryCount := gPingRetryCount, broadcast := false, isLocal := false }] :=
  ⟨by decide, (pushPingRequest_guard s0 addrA).2 (by decide)⟩

/-- C8: the heartbeat loop is gated by gHeartbeatSeq: stopHeartbeat strictly
increments the sequence; a tick carrying the current sequence sends one
GameHeartbeat to every configured master and reschedules itself with the same
sequence gHeartbeatInterval (10000 ms) later; a tick that fires after
stopHeartbeat carries a stale sequence and neither sends nor reschedules. -/
theorem heartbeat_gating (cfg : Config) (s : SQState) (now now2 : Nat) :
    (stopHeartbeat s).heartbeatSeq = s.heartbeatSeq + 1 ∧
      processHeartbeat cfg s.heartbeatSeq now s =
        (cfg.masters.map
          (fun m => sendPacketOut PType.gameHeartbeat m.address 0 s.pingSession 0),
         [SEvent.heartbeatEvent s.heartbeatSeq (now + 10000)]) ∧
      processHeartbeat cfg s.heartbeatSeq now2 (stopHeartbeat s) = ([], []) := by
  refine ⟨rfl, ?_, ?_⟩
  · simp [processHeartbeat, sendHeartbeat, gHeartbeatInterval]
  · simp [processHeartbeat, stopHeartbeat]

/-- C9: when gPingList is empty, handleGamePingResponse returns the state
untouched — every ping response, anonymous ones included, is dropped. -/
theorem pingResponse_dropped_when_list_empty (cfg : Config) (a : NetAddr)
    (pkt : PingResponsePacket) (key now : Nat) (s : SQState)
    (h : s.pingList = []) :
    handleGamePingResponse cfg a pkt key now s = s := by
  simp [handleGamePingResponse, h]

theorem pingResponse_dropped_when_list_empty_witness :
    s0.pingList = [] ∧
      handleGamePingResponse cfg0 addrA
        { versionTag := "VER1", protocolCurrent := 12, protocolMin := 9
        , buildVersion := 40, serverName := "x" } 7 50 s0 = s0 :=
  ⟨by decide,
    pingResponse_dropped_when_list_empty cfg0 addrA
      { versionTag := "VER1", protocolCurrent := 12, protocolMin := 9
      , buildVersion := 40, serverName := "x" } 7 50 s0 (by decide)⟩

/-- C10: setServerInfo(index) succeeds, and publishes exactly the indexed
entry's fields, iff the (S32-valued) index is in [0, size); any out-of-range
index — negative values included, via the U32 cast — yields false and
publishes nothing.  The bounds hypotheses record that the index comes from
dAtoi (an S32) and that a Vector size fits in an S32. -/
theorem setServerInfo_range (v : Int) (l : List ServerInfo)
    (hlen : (l.length : Int) < 2 ^ 31)
    (hlo : -(2 ^ 31) ≤ v) (hhi : v < 2 ^ 31) :
    ((setServerInfo v l).1 = true ↔ 0 ≤ v ∧ v.toNat < l.length) ∧
      ((setServerInfo v l).1 = false → (setServerInfo v l).2 = []) ∧
      (∀ hv : 0 ≤ v, ∀ hr : v.toNat < l.length,
        (setServerInfo v l).2 = publishVars (l.get ⟨v.toNat, hr⟩)) := by
  by_cases hv : 0 ≤ v
  · have hm : v % (2 ^ 32 : Int) = v := by omega
    have hidx : (v % (2 ^ 32 : Int)).toNat = v.toNat := by rw [hm]
    rw [setServerInfo]
    simp only [hidx]
    by_cases hr : v.toNat < l.length
    · rw [dif_pos hr]
      refine ⟨by simp [hv, hr], by simp, ?_⟩
      intro _ _
      rfl
    · rw [dif_neg hr]
      exact ⟨by simp [hr], fun _ => rfl, fun _ hr2 => absurd hr2 hr⟩
  · have hm : v % (2 ^ 32 : Int) = v + 2 ^ 32 := by omega
    have hidx : (2 ^ 31 : Nat) ≤ (v % (2 ^ 32 : Int)).toNat := by
      rw [hm]; omega
    have hr : ¬ (v % (2 ^ 32 : Int)).toNat < l.length := by omega
    rw [setServerInfo]
    rw [dif_neg hr]
    exact ⟨by simp [hv], fun _ => rfl, fun hv2 _ => absurd hv2 hv⟩

def si0 : ServerInfo :=
  { newServerInfo addrA with
    name := some "Alpha"
    numPlayers := 3
    maxPlayers := 16
    ping := 42 }

theorem setServerInfo_range_witness :
    ((s0.serverList.length : Int) < 2 ^ 31 ∧ -(2 ^ 31) ≤ (0 : Int) ∧ (0 : Int) < 2 ^ 31) ∧
      (((setServerInfo 0 [si0]).1 = true ↔ 0 ≤ (0 : Int) ∧ (0 : Int).toNat < [si0].length) ∧
        ((setServerInfo 0 [si0]).1 = false → (setServerInfo 0 [si0]).2 = []) ∧
        (∀ hv : 0 ≤ (0 : Int), ∀ hr : (0 : Int).toNat < [si0].length,
          (setServerInfo 0 [si0]).2 = publishVars ([si0].get ⟨(0 : Int).toNat, hr⟩))) :=
  ⟨⟨by decide, by decide, by decide⟩,
    setServerInfo_range 0 [si0] (by decide) (by decide) (by decide)⟩

/-- C6: with connections allowed, the ping responder stays silent exactly when
the server type is "SinglePlayer" (case-insensitively), or the request has the
OfflineQuery flag bit set, or the current player count has reached
maxPlayers − privateSlots; in every other such state it replies. -/
theorem pingResponder_silence (cfg : Config) (key flags : Nat)
    (h : cfg.allowConnections = true) :
    handleGamePingRequest cfg key flags = none ↔
      (stricmpEq cfg.serverType "SinglePlayer" = true ∨
        flags.testBit offlineQueryBit = true ∨
        cfg.serverPlayerCount ≥ cfg.serverMaxPlayers - cfg.serverPrivateSlots) := by
  rw [handleGamePingRequest, if_pos h]
  split_ifs with h1 h2 h3 <;> simp_all

theorem pingResponder_silence_witness :
    cfg0.allowConnections = true ∧
      (handleGamePingRequest cfg0 7 0 = none ↔
        (stricmpEq cfg0.serverType "SinglePlayer" = true ∨
          Nat.testBit 0 offlineQueryBit = true ∨
          cfg0.serverPlayerCount ≥ cfg0.serverMaxPlayers - cfg0.serverPrivateSlots)) :=
  ⟨by decide, pingResponder_silence cfg0 7 0 (by decide)⟩

theorem findPingEntry_append_last (l : List Ping) (p : Ping) (a : NetAddr)
    (h : findPingEntry l a = none) (hp : p.address = a) :
    findPingEntry (l ++ [p]) a = some l.length := by
  induction l with
  | nil => simp [findPingEntry, hp]
  | cons q rest ih =>
    rw [findPingEntry] at h
    by_cases hq : q.address = a
    · simp [hq] at h
    · simp only [if_neg hq] at h
      have h2 : findPingEntry rest a = none := by
        cases hfe : findPingEntry rest a with
        | none => rfl
        | some k => rw [hfe] at h; simp at h
      simp [findPingEntry, hq, ih h2]

theorem setIsLocalAt_append_length (l : List Ping) (p : Ping) :
    setIsLocalAt (l ++ [p]) l.length = l ++ [{ p with isLocal := true }] := by
  induction l with
  | nil => rfl
  | cons q rest ih => simp [setIsLocalAt, ih]

theorem isEmpty_false_of_ne_nil {α : Type} (l : List α) (h : l ≠ []) :
    l.isEmpty = false := by
  cases l with
  | nil => exact absurd rfl h
  | cons x xs => rfl

/-- C7: a GamePingResponse from an address with no live ping entry and not in
the finished set is re-enqueued as a fresh local ping — the new entry carries
the current session, a zero key, full tries and isLocal = true — and nothing
else changes: the server list, query list and finished list are untouched. -/
theorem anonymousPingResponse_enqueues_local (cfg : Config) (a : NetAddr)
    (pkt : PingResponsePacket) (key now : Nat) (s : SQState)
    (hne : s.pingList ≠ [])
    (hfind : findPingEntry s.pingList a = none)
    (hfin : addressFinished s.finishedList a = false) :
    handleGamePingResponse cfg a pkt key now s =
      { s with
        pingList := s.pingList ++
          [{ address := a, session := s.pingSession, key := 0, time := 0
           , tryCount := gPingRetryCount, broadcast := false, isLocal := true }]
        serverPingCount := s.serverPingCount + 1 } := by
  rw [handleGamePingResponse]
  rw [isEmpty_false_of_ne_nil s.pingList hne]
  simp only [Bool.false_eq_true, if_false, hfind]
  rw [if_neg (by simp [hfin])]
  have hpush : pushPingRequest a s =
      { s with
        pingList := s.pingList ++
          [{ address := a, session := s.pingSession, key := 0, time := 0
           , tryCount := gPingRetryCount, broadcast := false, isLocal := false }]
        serverPingCount := s.serverPingCount + 1 } := by
    rw [pushPingRequest, if_neg (by simp [hfin])]
  rw [hpush]
  rw [findPingEntry_append_last s.pingList _ a hfind rfl]
  simp [setIsLocalAt_append_length]

def sAnon : SQState :=
  { s0 with
    pingList :=
      [{ address := addrB, session := 1, key := 9, time := 0
       , tryCount := 4, broadcast := false, isLocal := false }] }

theorem anonymousPingResponse_enqueues_local_witness :
    (sAnon.pingList ≠ [] ∧ findPingEntry sAnon.pingList addrA = none ∧
        addressFinished sAnon.finishedList addrA = false) ∧
      handleGamePingResponse cfg0 addrA
          { versionTag := "VER1", protocolCurrent := 12, protocolMin := 9
          , buildVersion := 40, serverName := "x" } 7 50 sAnon =
        { sAnon with
          pingList := sAnon.pingList ++
            [{ address := addrA, session := sAnon.pingSession, key := 0, time := 0
             , tryCount := gPingRetryCount, broadcast := false, isLocal := true }]
          serverPingCount := sAnon.serverPingCount + 1 } :=
  ⟨⟨by decide, by decide, by decide⟩,
    anonymousPingResponse_enqueues_local cfg0 addrA
      { versionTag := "VER1", protocolCurrent := 12, protocolMin := 9
      , buildVersion := 40, serverName := "x" } 7 50 sAnon
      (by decide) (by decide) (by decide)⟩

theorem findServerInfo_setStatusFirst (a : NetAddr) (v : Nat)
    (l : List ServerInfo) :
    findServerInfo (setStatusFirst a v l) a =
      (findServerInfo l a).map (fun si => { si with status := v }) := by
  induction l with
  | nil => rfl
  | cons si rest ih =>
    by_cases h : si.address = a
    · simp [setStatusFirst, findServerInfo, h]
    · simp [setStatusFirst, findServerInfo, h, ih]

theorem findServerInfoIdx_isSome (l : List ServerInfo) (a : NetAddr) :
    (findServerInfoIdx l a).isSome = (findServerInfo l a).isSome := by
  induction l with
  | nil => rfl
  | cons si rest ih =>
    by_cases h : si.address = a
    · simp [findServerInfoIdx, findServerInfo, h]
    · simp [findServerInfoIdx, findServerInfo, h, ih]

theorem ne_nil_of_findPingEntry_some (l : List Ping) (a : NetAddr) (i : Nat)
    (h : findPingEntry l a = some i) : l ≠ [] := by
  intro hnil
  rw [hnil] at h
  exact Option.noConfusion h

/-- C4: a GamePingResponse whose key matches the live ping for its address but
whose version tag differs from "VER1" finishes the address (push to
gFinishedList, erase the ping entry), marks the existing ServerInfo — if one
exists — Status_TimedOut, and leaves the query list untouched, so the server
is never promoted to the query phase; the handler transmits nothing. -/
theorem versionTagMismatch_drops (cfg : Config) (a : NetAddr)
    (pkt : PingResponsePacket) (now : Nat) (s : SQState) (idx : Nat)
    (hfind : findPingEntry s.pingList a = some idx)
    (hver : pkt.versionTag ≠ versionString) :
    (handleGamePingResponse cfg a pkt
        (mkKeyField (s.pingList.getD idx nullPing).session
          (s.pingList.getD idx nullPing).key) now s).finishedList =
      s.finishedList ++ [a] ∧
    (handleGamePingResponse cfg a pkt
        (mkKeyField (s.pingList.getD idx nullPing).session
          (s.pingList.getD idx nullPing).key) now s).pingList =
      s.pingList.eraseIdx idx ∧
    (handleGamePingResponse cfg a pkt
        (mkKeyField (s.pingList.getD idx nullPing).session
          (s.pingList.getD idx nullPing).key) now s).queryList =
      s.queryList ∧
    (∀ si, findServerInfo s.serverList a = some si →
      findServerInfo
        (handleGamePingResponse cfg a pkt
          (mkKeyField (s.pingList.getD idx nullPing).session
            (s.pingList.getD idx nullPing).key) now s).serverList a =
        some { si with status := statusTimedOut }) := by
  have hne := isEmpty_false_of_ne_nil s.pingList
    (ne_nil_of_findPingEntry_some s.pingList a idx hfind)
  have hr : handleGamePingResponse cfg a pkt
      (mkKeyField (s.pingList.getD idx nullPing).session
        (s.pingList.getD idx nullPing).key) now s =
      { s with
        finishedList := s.finishedList ++ [a]
        pingList := s.pingList.eraseIdx idx
        serverList :=
          if (findServerInfoIdx s.serverList a).isSome then
            setStatusFirst a statusTimedOut s.serverList
          else s.serverList
        browserDirty :=
          if (findServerInfoIdx s.serverList a).isSome then true
          else s.browserDirty } := by
    rw [handleGamePingResponse]
    rw [hne]
    simp only [Bool.false_eq_true, if_false, hfind]
    rw [if_neg (fun hcon => hcon rfl)]
    rw [if_pos hver]
  rw [hr]
  refine ⟨rfl, rfl, rfl, ?_⟩
  intro si hsi
  have hidx : (findServerInfoIdx s.serverList a).isSome = true := by
    rw [findServerInfoIdx_isSome, hsi]
    rfl
  simp only [hidx, if_true]
  rw [findServerInfo_setStatusFirst, hsi]
  rfl

def sVer : SQState :=
  { s0 with
    pingList :=
      [{ address := addrA, session := 1, key := 9, time := 10
       , tryCount := 3, broadcast := false, isLocal := false }]
    serverList := [si0]
    gotFirstListPacket := true }

def pktVer2 : PingResponsePacket :=
  { versionTag := "VER2", protocolCurrent := 12, protocolMin := 9
  , buildVersion := 40, serverName := "x" }

theorem versionTagMismatch_drops_witness :
    (findPingEntry sVer.pingList addrA = some 0 ∧ pktVer2.versionTag ≠ versionString) ∧
      ((handleGamePingResponse cfg0 addrA pktVer2
          (mkKeyField (sVer.pingList.getD 0 nullPing).session
            (sVer.pingList.getD 0 nullPing).key) 50 sVer).finishedList =
        sVer.finishedList ++ [addrA] ∧
      (handleGamePingResponse cfg0 addrA pktVer2
          (mkKeyField (sVer.pingList.getD 0 nullPing).session
            (sVer.pingList.getD 0 nullPing).key) 50 sVer).pingList =
        sVer.pingList.eraseIdx 0 ∧
      (handleGamePingResponse cfg0 addrA pktVer2
          (mkKeyField (sVer.pingList.getD 0 nullPing).session
            (sVer.pingList.getD 0 nullPing).key) 50 sVer).queryList =
        sVer.queryList ∧
      (∀ si, findServerInfo sVer.serverList addrA = some si →
        findServerInfo
          (handleGamePingResponse cfg0 addrA pktVer2
            (mkKeyField (sVer.pingList.getD 0 nullPing).session
              (sVer.pingList.getD 0 nullPing).key) 50 sVer).serverList addrA =
          some { si with status := statusTimedOut })) :=
  ⟨⟨by decide, by decide⟩,
    versionTagMismatch_drops cfg0 addrA pktVer2 50 sVer 0 (by decide) (by decide)⟩

theorem nil_of_isEmpty {α : Type} (l : List α) (h : l.isEmpty = true) :
    l = [] := by
  cases l with
  | nil => rfl
  | cons x xs => exact Bool.noConfusion h

theorem pingLoop_preserves (cfg : Config) (now : Nat) (rem kept : List Ping)
    (s : SQState) :
    ((pingLoop cfg now kept rem s).1).queryList = s.queryList ∧
      ((pingLoop cfg now kept rem s).1).packetStatusList = s.packetStatusList := by
  induction rem generalizing kept s with
  | nil => exact ⟨rfl, rfl⟩
  | cons p rest ih =>
    by_cases h1 : kept.length < gMaxConcurrentPings
    · by_cases h2 : p.time + gPingTimeout < now
      · by_cases h3 : p.tryCount = 0
        · rw [pingLoop, if_pos h1, if_pos h2, if_pos h3]
          exact ih _ _
        · rw [pingLoop, if_pos h1, if_pos h2, if_neg h3]
          exact ih _ _
      · rw [pingLoop, if_pos h1, if_neg h2]
        exact ih _ _
    · rw [pingLoop, if_neg h1]
      exact ⟨rfl, rfl⟩

theorem pingLoop_sends_no_info (cfg : Config) (now : Nat) (rem kept : List Ping)
    (s : SQState) :
    ((pingLoop cfg now kept rem s).2).any
        (fun pkt => pkt.ptype == PType.gameInfoRequest) = false := by
  induction rem generalizing kept s with
  | nil => rfl
  | cons p rest ih =>
    by_cases h1 : kept.length < gMaxConcurrentPings
    · by_cases h2 : p.time + gPingTimeout < now
      · by_cases h3 : p.tryCount = 0
        · rw [pingLoop, if_pos h1, if_pos h2, if_pos h3]
          exact ih _ _
        · rw [pingLoop, if_pos h1, if_pos h2, if_neg h3]
          simp only [List.any_cons, List.any_append, Bool.or_eq_false_iff]
          refine ⟨⟨rfl, ?_⟩, ih _ _⟩
          split
          · simp [List.any_map, holePunchForward, Function.comp]
          · rfl
      · rw [pingLoop, if_pos h1, if_neg h2]
        exact ih _ _
    · rw [pingLoop, if_neg h1]
      rfl

theorem queryLoop_preserves (cfg : Config) (now : Nat) (rem kept : List Ping)
    (s : SQState) :
    ((queryLoop cfg now kept rem s).1).pingList = s.pingList ∧
      ((queryLoop cfg now kept rem s).1).packetStatusList = s.packetStatusList := by
  induction rem generalizing kept s with
  | nil => exact ⟨rfl, rfl⟩
  | cons p rest ih =>
    by_cases h1 : kept.length < gMaxConcurrentQueries
    · by_cases h2 : p.time + gPingTimeout < now
      · rw [queryLoop, if_pos h1, if_pos h2]
        cases hsi : findServerInfoIdx s.serverList p.address with
        | none =>
          simp only []
          exact ih _ _
        | some j =>
          simp only []
          by_cases h3 : p.tryCount = 0
          · rw [if_pos h3]
            exact ih _ _
          · rw [if_neg h3]
            by_cases h4 :
              ((!(s.serverList.getD j (newServerInfo p.address)).isQuerying) = true)
            · rw [if_pos h4]
              exact ih _ _
            · rw [if_neg h4]
              exact ih _ _
      · rw [queryLoop, if_pos h1, if_neg h2]
        exact ih _ _
    · rw [queryLoop, if_neg h1]
      exact ⟨rfl, rfl⟩

theorem processPingsAndQueries_packetStatusList (cfg : Config)
    (session : Nat) (schedule : Bool) (now : Nat) (s : SQState) :
    ((processPingsAndQueries cfg session schedule now s).1).packetStatusList =
      s.packetStatusList := by
  rw [processPingsAndQueries]
  by_cases hsess : session ≠ s.pingSession
  · rw [if_pos hsess]
  · rw [if_neg hsess]
    by_cases hgate :
      ((pingLoop cfg now [] s.pingList s).1.pingList.isEmpty = true ∧
        ¬ (s.filterType = FilterType.normal ∧ s.gotFirstListPacket = false ∧
            s.serverQueryActive = true))
    · simp only [if_pos hgate]
      rw [(queryLoop_preserves cfg now _ [] _).2]
      exact (pingLoop_preserves cfg now s.pingList [] s).2
    · simp only [if_neg hgate]
      exact (pingLoop_preserves cfg now s.pingList [] s).2

theorem packetLoop_not_due (qa : NetAddr) (qf sess now : Nat)
    (rem kept : List PacketStatus) (s : SQState)
    (h : ∀ q ∈ rem, ¬ q.time + gPacketTimeout < now) :
    packetLoop qa qf sess now kept rem s =
      ({ s with packetStatusList := kept.reverse ++ rem }, []) := by
  induction rem generalizing kept with
  | nil =>
    rw [packetLoop.eq_def]
    simp
  | cons p rest ih =>
    rw [packetLoop.eq_def]
    simp only []
    rw [if_neg (h p (by simp))]
    rw [ih (p :: kept) (fun q hq => h q (List.mem_cons_of_mem p hq))]
    simp

theorem pushPingRequest_packetStatusList (a : NetAddr) (s : SQState) :
    (pushPingRequest a s).packetStatusList = s.packetStatusList := by
  rw [pushPingRequest]
  split
  · rfl
  · rfl

theorem pushFold_packetStatusList (servers : List NetAddr) (flags : Nat)
    (s : SQState) :
    (servers.foldl
        (fun st a =>
          pushPingRequest a
            (if flags ≠ 0 then
              { st with localAddresses := addLocalAddress st.localAddresses a }
            else st))
        s).packetStatusList = s.packetStatusList := by
  induction servers generalizing s with
  | nil => rfl
  | cons a rest ih =>
    rw [List.foldl_cons, ih]
    rw [pushPingRequest_packetStatusList]
    split
    · rfl
    · rfl

theorem processServerListPackets_fresh (cfg : Config) (sess now : Nat)
    (s : SQState) (h : ∀ q ∈ s.packetStatusList, q.time = now) :
    ((processServerListPackets cfg sess now s).1).packetStatusList =
      s.packetStatusList := by
  rw [processServerListPackets]
  by_cases hguard : sess ≠ s.pingSession ∨ s.serverQueryActive = false
  · rw [if_pos hguard]
  · rw [if_neg hguard]
    have hloop := packetLoop_not_due s.masterServerQueryAddress s.filterQueryFlags
      sess now s.packetStatusList [] s
      (fun q hq => by rw [h q hq]; omega)
    simp only [hloop, List.reverse_nil, List.nil_append]
    by_cases hnil : s.packetStatusList = []
    · simp [hnil, processPingsAndQueries_packetStatusList]
    · have hne := isEmpty_false_of_ne_nil s.packetStatusList hnil
      simp [hne]

/-- C5: a MasterServerListResponse is accepted exactly when its echoed key
equals (gPingSession<<16)|(storedKey&0xFFFF) — storedKey being the master
ping's key or, after the first packet, the key recorded in the PacketStatus
entry for that index — a mismatch changing nothing and emitting nothing; and
the first accepted packet creates a PacketStatus entry with the original
master key and tryCount = gPacketRetryCount (4) for every index in
[0, packetTotal) except the one just received. -/
theorem masterListResponse_key_validation (cfg : Config)
    (pkt : MasterListPacket) (key flags now : Nat) (s : SQState) :
    (mkKeyField s.pingSession (storedPacketKey s pkt.packetIndex) ≠ key →
      handleMasterServerListResponse cfg pkt key flags now s = (s, [], [])) ∧
    (mkKeyField s.pingSession (storedPacketKey s pkt.packetIndex) = key →
      s.gotFirstListPacket = false →
      s.packetStatusList = [] →
      ((handleMasterServerListResponse cfg pkt key flags now s).1).packetStatusList =
        ((List.range pkt.packetTotal).filter (fun i => i ≠ pkt.packetIndex)).map
          (fun i =>
            { index := i, key := s.masterServerPing.key, time := now
            , tryCount := gPacketRetryCount })) := by
  constructor
  · intro h
    rw [handleMasterServerListResponse, if_pos h]
  · intro hkey hfirst hempty
    rw [handleMasterServerListResponse, if_neg (fun hcon => hcon hkey)]
    rw [if_pos hfirst]
    rw [processServerListPackets_fresh]
    · simp only [pushFold_packetStatusList, hempty, List.nil_append]
    · intro q hq
      simp only [pushFold_packetStatusList, hempty, List.nil_append] at hq
      simp only [List.mem_map] at hq
      obtain ⟨i, hi, hq2⟩ := hq
      rw [← hq2]

theorem masterListResponse_key_validation_witness :
    (mkKeyField s0.pingSession (storedPacketKey s0 frag0.packetIndex) ≠ 999 ∧
        handleMasterServerListResponse cfg0 frag0 999 0 100 s0 = (s0, [], [])) ∧
      (mkKeyField s0.pingSession (storedPacketKey s0 frag0.packetIndex) = key01 ∧
        ((handleMasterServerListResponse cfg0 frag0 key01 0 100 s0).1).packetStatusList =
          ((List.range frag0.packetTotal).filter (fun i => i ≠ frag0.packetIndex)).map
            (fun i =>
              { index := i, key := s0.masterServerPing.key, time := 100
              , tryCount := gPacketRetryCount })) :=
  ⟨⟨by decide,
      (masterListResponse_key_validation cfg0 frag0 999 0 100 s0).1 (by decide)⟩,
    ⟨by decide,
      (masterListResponse_key_validation cfg0 frag0 key01 0 100 s0).2
        (by decide) (by decide) (by decide)⟩⟩

/-- C3: the query phase is gated behind the ping phase.  In an active-query
tick of processPingsAndQueries, if any GameInfoRequest goes out or the query
list is touched at all, then the ping list is empty once the tick's ping
phase has run (the resulting ping list is empty) and, for a Normal query, the
first master list packet has already arrived. -/
theorem queryPhase_gated (cfg : Config) (session : Nat) (schedule : Bool)
    (now : Nat) (s : SQState)
    (hactive : s.serverQueryActive = true)
    (h : ((processPingsAndQueries cfg session schedule now s).2.1).any
           (fun pkt => pkt.ptype == PType.gameInfoRequest) = true ∨
         ((processPingsAndQueries cfg session schedule now s).1).queryList ≠
           s.queryList) :
    ((processPingsAndQueries cfg session schedule now s).1).pingList = [] ∧
      (s.filterType = FilterType.normal → s.gotFirstListPacket = true) := by
  by_cases hsess : session ≠ s.pingSession
  · rw [processPingsAndQueries, if_pos hsess] at h
    simp at h
  · rw [processPingsAndQueries, if_neg hsess] at h ⊢
    by_cases hgate :
      ((pingLoop cfg now [] s.pingList s).1.pingList.isEmpty = true ∧
        ¬ (s.filterType = FilterType.normal ∧ s.gotFirstListPacket = false ∧
            s.serverQueryActive = true))
    · simp only [if_pos hgate]
      constructor
      · rw [(queryLoop_preserves cfg now _ [] _).1]
        exact nil_of_isEmpty _ hgate.1
      · intro hnorm
        rcases hb : s.gotFirstListPacket with _ | _
        · exact absurd ⟨hnorm, hb, hactive⟩ hgate.2
        · rfl
    · simp only [if_neg hgate] at h
      rcases h with h | h
      · rw [List.append_nil] at h
        rw [pingLoop_sends_no_info cfg now s.pingList [] s] at h
        exact Bool.noConfusion h
      · rw [(pingLoop_preserves cfg now s.pingList [] s).1] at h
        exact absurd rfl h

def sq3 : SQState :=
  { s0 with
    filterType := FilterType.offline
    pingList := []
    queryList :=
      [{ address := addrA, session := 1, key := 0, time := 0
       , tryCount := gQueryRetryCount, broadcast := false, isLocal := false }]
    serverList := [si0] }

theorem queryPhase_gated_witness :
    (sq3.serverQueryActive = true ∧
        ((processPingsAndQueries cfg0 1 true 1000 sq3).2.1).any
          (fun pkt => pkt.ptype == PType.gameInfoRequest) = true) ∧
      (((processPingsAndQueries cfg0 1 true 1000 sq3).1).pingList = [] ∧
        (sq3.filterType = FilterType.normal → sq3.gotFirstListPacket = true)) :=
  ⟨⟨by decide, by decide⟩,
    queryPhase_gated cfg0 1 true 1000 sq3 (by decide) (Or.inl (by decide))⟩
